import Mathlib

/-!
# Verification of the Hive Schedule Manager integration

Shallow embedding of the core logic of the `hive_schedule` Home Assistant
custom integration (`custom_components/hive_schedule`):

* time conversions `time_to_minutes` / `minutes_to_time`
  (`HiveScheduleAPI`, also `decode_schedule.py`),
* schedule validation `_validate_schedule` / `validate_custom_schedule`,
* the token lifecycle `HiveAuth.refresh_token` / `HiveAuth.get_id_token` /
  `HiveAuth._save_tokens`,
* schedule submission `HiveScheduleAPI.update_schedule`,
* the `set_day_schedule` service handler `handle_set_day`.

Effectful Python code (HTTP, the Cognito provider, the Home Assistant config
entry) is modelled by explicit state passing: the provider's response to a
refresh exchange and the HTTP status of each POST are oracle parameters, and
the mutable `HiveAuth` fields plus the persisted config-entry data form an
explicit state record.
-/

/-! ## Decimal digits

Python formats numbers with `f"{n:02d}"` and parses them with `int(...)`.
We model the decimal digit characters explicitly. -/

/-- Value of a decimal digit character, `none` for any other character. -/
def digitVal (c : Char) : Option ℕ :=
  if c = '0' then some 0 else if c = '1' then some 1 else if c = '2' then some 2
  else if c = '3' then some 3 else if c = '4' then some 4 else if c = '5' then some 5
  else if c = '6' then some 6 else if c = '7' then some 7 else if c = '8' then some 8
  else if c = '9' then some 9 else none

/-- The decimal digit character for a value below 10. -/
def digitChar (d : ℕ) : Char :=
  if d = 0 then '0' else if d = 1 then '1' else if d = 2 then '2' else if d = 3 then '3'
  else if d = 4 then '4' else if d = 5 then '5' else if d = 6 then '6' else if d = 7 then '7'
  else if d = 8 then '8' else '9'

/-- Decimal digit string of `n`, most significant digit first (fuelled so that
the definition is structural and computes by `decide`/`rfl`). -/
def natDigitsAux : ℕ → ℕ → List Char
  | 0, _ => []
  | fuel + 1, n =>
    if n < 10 then [digitChar n]
    else natDigitsAux fuel (n / 10) ++ [digitChar (n % 10)]

/-- Decimal digit string of `n`, as produced by Python's `str`/`format`. -/
def natDigits (n : ℕ) : List Char := natDigitsAux (n + 1) n

/-- Python's `f"{n:02d}"`: the decimal digits of `n`, zero-padded on the left
to a minimum width of 2. -/
def pad2 (n : ℕ) : List Char :=
  if (natDigits n).length < 2 then '0' :: natDigits n else natDigits n

/-- Accumulating decimal reader: fails on the first non-digit character. -/
def digitsValAux : List Char → ℕ → Option ℕ
  | [], acc => some acc
  | c :: rest, acc =>
    match digitVal c with
    | some d => digitsValAux rest (acc * 10 + d)
    | none => none

/-- Value of a non-empty all-digit character list. -/
def digitsVal (l : List Char) : Option ℕ :=
  if l = [] then none else digitsValAux l 0

/-- Python's `int(s)` on a character list: an optional single `+`/`-` sign
followed by a non-empty run of decimal digits.  (Python additionally strips
surrounding whitespace and allows `_` digit grouping; those inputs never
arise from this integration and are not modelled.) -/
def pyInt (l : List Char) : Option ℤ :=
  match l with
  | [] => none
  | c :: rest =>
    if c = '+' then (digitsVal rest).map (fun n => (n : ℤ))
    else if c = '-' then (digitsVal rest).map (fun n => -(n : ℤ))
    else (digitsVal (c :: rest)).map (fun n => (n : ℤ))

/-! ## Python `str.split(":")` -/

/-- Worker for `splitColon`: `acc` holds the current field, reversed. -/
def splitCharsAux : List Char → List Char → List (List Char)
  | [], acc => [acc.reverse]
  | c :: rest, acc =>
    if c = ':' then acc.reverse :: splitCharsAux rest []
    else splitCharsAux rest (c :: acc)

/-- Python's `s.split(":")`: separator-delimited fields, empties included. -/
def splitColon (l : List Char) : List (List Char) := splitCharsAux l []

/-! ## Time conversions

`HiveScheduleAPI.time_to_minutes` / `HiveScheduleAPI.minutes_to_time`
(`__init__.py`); `minutes_to_time` is duplicated verbatim in
`decode_schedule.py`.  `time_to_minutes` raises on malformed input
(`split`/`int` failures), modelled as `Option`.  `minutes_to_time` is modelled
on natural numbers, the only inputs the integration produces. -/

/-- `time_to_minutes`: `h, m = map(int, time_str.split(":")); return h * 60 + m`. -/
def time_to_minutes (s : String) : Option ℤ :=
  match splitColon s.data with
  | [hs, ms] =>
    match pyInt hs, pyInt ms with
    | some h, some m => some (h * 60 + m)
    | _, _ => none
  | _ => none

/-- `minutes_to_time`: `f"{minutes // 60:02d}:{minutes % 60:02d}"`. -/
def minutes_to_time (m : ℕ) : String := ⟨pad2 (m / 60) ++ ':' :: pad2 (m % 60)⟩

/-- A string of the exact shape `HH:MM` with two-digit fields,
hours in `[0, 23]` and minutes in `[0, 59]`. -/
def isHHMM (s : String) : Bool :=
  match s.data with
  | [h1, h2, c, m1, m2] =>
    match digitVal h1, digitVal h2, digitVal m1, digitVal m2 with
    | some a, some b, some d, some e =>
      decide (c = ':') && decide (10 * a + b ≤ 23) && decide (10 * d + e ≤ 59)
    | _, _, _, _ => false
  | _ => false

/-! ## Digit lemmas -/

theorem digitVal_digitChar (n : ℕ) (h : n < 10) : digitVal (digitChar n) = some n := by
  interval_cases n <;> rfl

theorem digitVal_lt_ten {c : Char} {d : ℕ} (h : digitVal c = some d) : d < 10 := by
  unfold digitVal at h
  split_ifs at h <;>
    first
      | (simp only [Option.some.injEq] at h; omega)
      | exact absurd h (by simp)

theorem digitChar_digitVal {c : Char} {d : ℕ} (h : digitVal c = some d) : digitChar d = c := by
  unfold digitVal at h
  split_ifs at h <;>
    first
      | (simp only [Option.some.injEq] at h; subst h; subst_vars; rfl)
      | exact absurd h (by simp)

theorem digitVal_ne_special {c : Char} {d : ℕ} (h : digitVal c = some d) :
    c ≠ ':' ∧ c ≠ '+' ∧ c ≠ '-' := by
  unfold digitVal at h
  split_ifs at h <;>
    first
      | (subst_vars; exact ⟨by decide, by decide, by decide⟩)
      | exact absurd h (by simp)

theorem natDigitsAux_ne_nil (fuel n : ℕ) (h : n < fuel) : natDigitsAux fuel n ≠ [] := by
  cases fuel with
  | zero => omega
  | succ f =>
    simp only [natDigitsAux]
    split
    · simp
    · simp

theorem natDigitsAux_digits (fuel : ℕ) :
    ∀ n, n < fuel → ∀ c ∈ natDigitsAux fuel n, ∃ d, d < 10 ∧ digitVal c = some d := by
  induction fuel with
  | zero => intro n h; omega
  | succ f ih =>
    intro n h c hc
    simp only [natDigitsAux] at hc
    by_cases h10 : n < 10
    · rw [if_pos h10] at hc
      simp only [List.mem_singleton] at hc
      subst hc
      exact ⟨n, h10, digitVal_digitChar n h10⟩
    · rw [if_neg h10] at hc
      rcases List.mem_append.mp hc with h1 | h2
      · exact ih (n / 10) (by omega) c h1
      · simp only [List.mem_singleton] at h2
        subst h2
        exact ⟨n % 10, by omega, digitVal_digitChar _ (by omega)⟩

theorem natDigitsAux_fuel (f1 : ℕ) :
    ∀ f2 n, n < f1 → n < f2 → natDigitsAux f1 n = natDigitsAux f2 n := by
  induction f1 with
  | zero => intro f2 n h; omega
  | succ f ih =>
    intro f2 n h1 h2
    cases f2 with
    | zero => omega
    | succ g =>
      simp only [natDigitsAux]
      by_cases h10 : n < 10
      · rw [if_pos h10, if_pos h10]
      · have hlt : n / 10 < n := Nat.div_lt_self (by omega) (by norm_num)
        rw [if_neg h10, if_neg h10, ih g (n / 10) (by omega) (by omega)]

theorem digitsValAux_append (l r : List Char) (acc : ℕ) :
    digitsValAux (l ++ r) acc = (digitsValAux l acc).bind (fun v => digitsValAux r v) := by
  induction l generalizing acc with
  | nil => simp [digitsValAux]
  | cons c cs ih =>
    simp only [List.cons_append, digitsValAux]
    cases h : digitVal c with
    | none => rfl
    | some d => exact ih _

theorem digitsValAux_natDigitsAux (fuel : ℕ) :
    ∀ n acc, n < fuel →
      digitsValAux (natDigitsAux fuel n) acc =
        some (acc * 10 ^ (natDigitsAux fuel n).length + n) := by
  induction fuel with
  | zero => intro n acc h; omega
  | succ f ih =>
    intro n acc h
    by_cases h10 : n < 10
    · simp only [natDigitsAux, if_pos h10]
      simp [digitsValAux, digitVal_digitChar n h10]
    · simp only [natDigitsAux, if_neg h10]
      have hlt : n / 10 < n := Nat.div_lt_self (by omega) (by norm_num)
      rw [digitsValAux_append, ih (n / 10) acc (by omega)]
      simp only [Option.some_bind]
      simp only [digitsValAux, digitVal_digitChar (n % 10) (by omega), List.length_append,
        List.length_singleton]
      rw [pow_succ, ← mul_assoc]
      generalize acc * 10 ^ (natDigitsAux f (n / 10)).length = A
      simp only [Option.some.injEq]
      omega

theorem pyInt_digits (l : List Char) (hne : l ≠ [])
    (hd : ∀ c ∈ l, ∃ d, d < 10 ∧ digitVal c = some d) :
    pyInt l = (digitsValAux l 0).map (fun n => (n : ℤ)) := by
  cases l with
  | nil => exact absurd rfl hne
  | cons c cs =>
    obtain ⟨d, _, hdc⟩ := hd c (by simp)
    obtain ⟨h1, h2, h3⟩ := digitVal_ne_special hdc
    simp [pyInt, h2, h3, digitsVal]

theorem pyInt_natDigits (n : ℕ) : pyInt (natDigits n) = some (n : ℤ) := by
  have hlt : n < n + 1 := Nat.lt_succ_self n
  unfold natDigits
  rw [pyInt_digits _ (natDigitsAux_ne_nil _ _ hlt) (natDigitsAux_digits _ _ hlt)]
  rw [digitsValAux_natDigitsAux _ _ 0 hlt]
  simp

theorem pyInt_pad2 (n : ℕ) : pyInt (pad2 n) = some (n : ℤ) := by
  unfold pad2
  split
  · have hlt : n < n + 1 := Nat.lt_succ_self n
    simp only [pyInt, if_neg (by decide : ¬ ('0' : Char) = '+'),
      if_neg (by decide : ¬ ('0' : Char) = '-'), digitsVal,
      if_neg (by simp : ¬ ('0' :: natDigits n) = [])]
    have h0 : digitVal '0' = some 0 := rfl
    simp only [digitsValAux, h0]
    unfold natDigits
    rw [digitsValAux_natDigitsAux _ _ _ hlt]
    simp
  · exact pyInt_natDigits n

theorem natDigits_no_colon (n : ℕ) : ∀ c ∈ natDigits n, c ≠ ':' := by
  intro c hc
  obtain ⟨d, _, hd⟩ := natDigitsAux_digits (n + 1) n (Nat.lt_succ_self n) c hc
  exact (digitVal_ne_special hd).1

theorem pad2_no_colon (n : ℕ) : ∀ c ∈ pad2 n, c ≠ ':' := by
  intro c hc
  unfold pad2 at hc
  split at hc
  · rcases List.mem_cons.mp hc with rfl | hc2
    · decide
    · exact natDigits_no_colon n c hc2
  · exact natDigits_no_colon n c hc

theorem splitCharsAux_no_colon (l : List Char) (h : ∀ c ∈ l, c ≠ ':') :
    ∀ acc, splitCharsAux l acc = [acc.reverse ++ l] := by
  induction l with
  | nil => intro acc; simp [splitCharsAux]
  | cons c cs ih =>
    intro acc
    have hc : c ≠ ':' := h c (by simp)
    simp only [splitCharsAux, if_neg hc]
    rw [ih (fun x hx => h x (by simp [hx]))]
    simp

theorem splitColon_pair (l r : List Char) (hl : ∀ c ∈ l, c ≠ ':') (hr : ∀ c ∈ r, c ≠ ':') :
    splitColon (l ++ ':' :: r) = [l, r] := by
  have aux : ∀ l2, (∀ c ∈ l2, c ≠ ':') → ∀ acc,
      splitCharsAux (l2 ++ ':' :: r) acc = (acc.reverse ++ l2) :: splitCharsAux r [] := by
    intro l2 hl2
    induction l2 with
    | nil => intro acc; simp [splitCharsAux]
    | cons c cs ih =>
      intro acc
      have hc : c ≠ ':' := hl2 c (by simp)
      simp only [List.cons_append, splitCharsAux, if_neg hc, List.append_eq]
      rw [ih (fun x hx => hl2 x (by simp [hx]))]
      simp
  unfold splitColon
  rw [aux l hl [], splitCharsAux_no_colon r hr []]
  simp

theorem pad2_two_digits (a b : ℕ) (ha : a < 10) (hb : b < 10) :
    pad2 (10 * a + b) = [digitChar a, digitChar b] := by
  by_cases h0 : a = 0
  · subst h0
    simp only [Nat.mul_zero, Nat.zero_add]
    have hdig : natDigits b = [digitChar b] := by
      unfold natDigits natDigitsAux
      rw [if_pos hb]
    rw [pad2, hdig]
    norm_num
    rfl
  · have h10 : ¬ 10 * a + b < 10 := by omega
    have hdiv : (10 * a + b) / 10 = a := by omega
    have hmod : (10 * a + b) % 10 = b := by omega
    have hdig : natDigits (10 * a + b) = [digitChar a, digitChar b] := by
      unfold natDigits natDigitsAux
      rw [if_neg h10, hdiv, hmod]
      rw [natDigitsAux_fuel (10 * a + b) (a + 1) a (by omega) (by omega)]
      unfold natDigitsAux
      rw [if_pos ha]
      rfl
    rw [pad2, hdig]
    norm_num

theorem splitColon_minutes_to_time (m : ℕ) :
    splitColon (minutes_to_time m).data = [pad2 (m / 60), pad2 (m % 60)] :=
  splitColon_pair _ _ (pad2_no_colon _) (pad2_no_colon _)

/-- C10: for every non-negative integer `m`,
`time_to_minutes (minutes_to_time m) = m`; `minutes_to_time` does not wrap at
24 hours, e.g. `minutes_to_time 1500 = "25:00"`. -/
theorem minutes_time_roundtrip :
    (∀ m : ℕ, time_to_minutes (minutes_to_time m) = some (m : ℤ)) ∧
    minutes_to_time 1500 = "25:00" := by
  constructor
  · intro m
    unfold time_to_minutes
    simp only [splitColon_minutes_to_time, pyInt_pad2, Option.some.injEq]
    omega
  · decide

theorem roundtrip_core (h1 h2 m1 m2 : Char) (a b d e : ℕ)
    (hva : digitVal h1 = some a) (hvb : digitVal h2 = some b)
    (hvd : digitVal m1 = some d) (hve : digitVal m2 = some e)
    (hh : 10 * a + b ≤ 23) (hm : 10 * d + e ≤ 59) :
    time_to_minutes ⟨[h1, h2, ':', m1, m2]⟩ =
      some ((60 * (10 * a + b) + (10 * d + e) : ℕ) : ℤ) ∧
    minutes_to_time (60 * (10 * a + b) + (10 * d + e)) = ⟨[h1, h2, ':', m1, m2]⟩ := by
  have hsplit : splitColon [h1, h2, ':', m1, m2] = [[h1, h2], [m1, m2]] := by
    have hpair := splitColon_pair [h1, h2] [m1, m2]
      (by
        intro c hc
        rcases List.mem_cons.mp hc with rfl | hc2
        · exact (digitVal_ne_special hva).1
        · rcases List.mem_cons.mp hc2 with rfl | hc3
          · exact (digitVal_ne_special hvb).1
          · simp at hc3)
      (by
        intro c hc
        rcases List.mem_cons.mp hc with rfl | hc2
        · exact (digitVal_ne_special hvd).1
        · rcases List.mem_cons.mp hc2 with rfl | hc3
          · exact (digitVal_ne_special hve).1
          · simp at hc3)
    simpa using hpair
  have hint1 : pyInt [h1, h2] = some ((10 * a + b : ℕ) : ℤ) := by
    obtain ⟨-, hp, hn⟩ := digitVal_ne_special hva
    have hdv : digitsVal [h1, h2] = some (10 * a + b) := by
      simp only [digitsVal, if_neg (by simp : ¬ ([h1, h2] : List Char) = []),
        digitsValAux, hva, hvb]
      congr 1
      ring
    simp only [pyInt, if_neg hp, if_neg hn, hdv, Option.map_some']
    rfl
  have hint2 : pyInt [m1, m2] = some ((10 * d + e : ℕ) : ℤ) := by
    obtain ⟨-, hp, hn⟩ := digitVal_ne_special hvd
    have hdv : digitsVal [m1, m2] = some (10 * d + e) := by
      simp only [digitsVal, if_neg (by simp : ¬ ([m1, m2] : List Char) = []),
        digitsValAux, hvd, hve]
      congr 1
      ring
    simp only [pyInt, if_neg hp, if_neg hn, hdv, Option.map_some']
    rfl
  constructor
  · unfold time_to_minutes
    simp only [hsplit, hint1, hint2, Option.some.injEq]
    push_cast
    ring
  · unfold minutes_to_time
    have hdiv : (60 * (10 * a + b) + (10 * d + e)) / 60 = 10 * a + b := by omega
    have hmod : (60 * (10 * a + b) + (10 * d + e)) % 60 = 10 * d + e := by omega
    rw [hdiv, hmod, pad2_two_digits a b (digitVal_lt_ten hva) (digitVal_lt_ten hvb),
      pad2_two_digits d e (digitVal_lt_ten hvd) (digitVal_lt_ten hve),
      digitChar_digitVal hva, digitChar_digitVal hvb,
      digitChar_digitVal hvd, digitChar_digitVal hve]
    rfl

/-- C6: `time_to_minutes "05:20" = 320` and `minutes_to_time 320 = "05:20"`;
moreover for every valid `HH:MM` string (hours in `[0,23]`, minutes in
`[0,59]`) the composition `minutes_to_time (time_to_minutes t)` returns `t`
unchanged. -/
theorem time_conversion_roundtrip :
    time_to_minutes "05:20" = some 320 ∧ minutes_to_time 320 = "05:20" ∧
    ∀ s : String, isHHMM s = true →
      ∃ n : ℕ, time_to_minutes s = some (n : ℤ) ∧ minutes_to_time n = s := by
  refine ⟨by decide, by decide, ?_⟩
  intro s hs
  obtain ⟨l⟩ := s
  rcases l with - | ⟨h1, - | ⟨h2, - | ⟨c, - | ⟨m1, - | ⟨m2, - | ⟨x, rest⟩⟩⟩⟩⟩⟩ <;>
    first
      | exact absurd hs Bool.false_ne_true
      | skip
  unfold isHHMM at hs
  dsimp only at hs
  rcases hva : digitVal h1 with - | a
  · rw [hva] at hs; exact absurd hs Bool.false_ne_true
  rw [hva] at hs
  rcases hvb : digitVal h2 with - | b
  · rw [hvb] at hs; exact absurd hs Bool.false_ne_true
  rw [hvb] at hs
  rcases hvd : digitVal m1 with - | d
  · rw [hvd] at hs; exact absurd hs Bool.false_ne_true
  rw [hvd] at hs
  rcases hve : digitVal m2 with - | e
  · rw [hve] at hs; exact absurd hs Bool.false_ne_true
  rw [hve] at hs
  simp only [Bool.and_eq_true, decide_eq_true_eq] at hs
  obtain ⟨⟨hc, hh⟩, hm⟩ := hs
  subst hc
  exact ⟨60 * (10 * a + b) + (10 * d + e),
    (roundtrip_core h1 h2 m1 m2 a b d e hva hvb hvd hve hh hm).1,
    (roundtrip_core h1 h2 m1 m2 a b d e hva hvb hvd hve hh hm).2⟩

/-! ## Schedule validation

`_validate_schedule` (`__init__.py`) and `validate_custom_schedule`
(`schedule_profiles.py`) have identical bodies; one model covers both.
Entries are modelled as records with a string time and a numeric temperature
(the service schema coerces `temp` to a number with `vol.Coerce(float)`);
temperatures are exact rationals, faithful for the range comparisons the code
performs. -/

/-- A schedule entry `{"time": ..., "temp": ...}`. -/
structure Entry where
  time : String
  temp : ℚ
deriving DecidableEq, Repr

/-- The per-entry time check of `_validate_schedule`: `time_str.split(":")`
must produce exactly two fields, both must parse with `int`, and the values
must lie in `[0, 23]` and `[0, 59]`. -/
def entryTimeOk (s : String) : Bool :=
  match splitColon s.data with
  | [hs, ms] =>
    match pyInt hs, pyInt ms with
    | some h, some m => decide (0 ≤ h ∧ h ≤ 23 ∧ 0 ≤ m ∧ m ≤ 59)
    | _, _ => false
  | _ => false

/-- The per-entry temperature check of `_validate_schedule`:
`5.0 <= float(entry["temp"]) <= 32.0`. -/
def entryTempOk (t : ℚ) : Bool := decide (5 ≤ t ∧ t ≤ 32)

/-- The per-entry loop of `_validate_schedule`, raising on the first bad
entry (time checked before temperature, as in the source). -/
def validateEntries : List Entry → Except String Unit
  | [] => Except.ok ()
  | e :: rest =>
    if entryTimeOk e.time then
      if entryTempOk e.temp then validateEntries rest
      else Except.error "Invalid temperature"
    else Except.error "Invalid time format"

/-- `_validate_schedule` / `validate_custom_schedule`: rejects an empty list,
then checks every entry in order. -/
def validateSchedule (s : List Entry) : Except String Unit :=
  if s = [] then Except.error "Schedule must have at least one entry"
  else validateEntries s

theorem validateEntries_ok_iff (l : List Entry) :
    validateEntries l = Except.ok () ↔
      ∀ e ∈ l, entryTimeOk e.time = true ∧ entryTempOk e.temp = true := by
  induction l with
  | nil => simp [validateEntries]
  | cons e rest ih =>
    by_cases ht : entryTimeOk e.time
    · by_cases hp : entryTempOk e.temp
      · simp [validateEntries, ht, hp, ih]
      · simp [validateEntries, ht, hp]
    · simp [validateEntries, ht]

/-- C5: `validate` succeeds exactly when the schedule is a non-empty list in
which every entry has a time parsing as `HH:MM` with hours in `[0,23]` and
minutes in `[0,59]` and a temperature in `[5.0, 32.0]`; an empty schedule,
an out-of-range time, or an out-of-range temperature makes it fail. -/
theorem validate_ok_iff (s : List Entry) :
    validateSchedule s = Except.ok () ↔
      s ≠ [] ∧ ∀ e ∈ s, entryTimeOk e.time = true ∧ entryTempOk e.temp = true := by
  unfold validateSchedule
  by_cases hne : s = []
  · simp [hne]
  · simp [hne, validateEntries_ok_iff]

/-! ## Token lifecycle (`HiveAuth`)

`HiveAuth` keeps four mutable token fields plus the config entry it was
loaded from.  `_save_tokens` copies the four fields into the config entry
(`async_update_entry`); the entry is modelled as a `Persisted` record.
The Cognito exchange (`Cognito(...)` + `renew_access_token()`) is effectful;
its outcome is an oracle parameter: a successful renewal carrying new id and
access tokens, a `ClientError` with code `NotAuthorizedException`, or any
other failure (`ClientError` with another code, `AttributeError`, ...).
Wall-clock time is an integer number of minutes. -/

/-- The token-related keys of the Home Assistant config entry
(`id_token`, `access_token`, `refresh_token`, `token_expiry`). -/
structure Persisted where
  idToken : Option String
  accessToken : Option String
  refreshToken : Option String
  expiry : Option ℤ
deriving DecidableEq, Repr

/-- The in-memory fields of `HiveAuth` (`_id_token`, `_access_token`,
`_refresh_token`, `_token_expiry`) together with the persisted entry data. -/
structure AuthState where
  idToken : Option String
  accessToken : Option String
  refreshToken : Option String
  tokenExpiry : Option ℤ
  persisted : Persisted
deriving DecidableEq, Repr

/-- Outcome of one Cognito `renew_access_token()` exchange. -/
inductive RefreshOutcome
  | success (newId newAccess : String)
  | notAuthorized
  | otherError
deriving DecidableEq, Repr

/-- Result of `HiveAuth.refresh_token`: the boolean the method returns, the
state it leaves behind, and whether a provider exchange was attempted. -/
structure RefreshResult where
  ok : Bool
  state : AuthState
  exchanged : Bool
deriving DecidableEq, Repr

/-- `HiveAuth._save_tokens`: write the four in-memory fields into the config
entry. -/
def savePersisted (st : AuthState) : Persisted :=
  ⟨st.idToken, st.accessToken, st.refreshToken, st.tokenExpiry⟩

/-- `HiveAuth.__init__`: load the four token fields from the config entry. -/
def loadState (p : Persisted) : AuthState :=
  ⟨p.idToken, p.accessToken, p.refreshToken, p.expiry, p⟩

/-- The in-memory state after the `NotAuthorizedException` handler cleared
all four token fields (the persisted entry is left as it was). -/
def clearedTokens (p : Persisted) : AuthState :=
  ⟨none, none, none, none, p⟩

/-- The expiry-margin test of `refresh_token`:
`self._token_expiry and datetime.now() < self._token_expiry - timedelta(minutes=5)`. -/
def tokenValidAt (st : AuthState) (now : ℤ) : Prop :=
  ∃ e, st.tokenExpiry = some e ∧ now < e - 5

instance (st : AuthState) (now : ℤ) : Decidable (tokenValidAt st now) := by
  unfold tokenValidAt
  cases h : st.tokenExpiry with
  | none => exact Decidable.isFalse (by simp [h])
  | some e =>
    by_cases hlt : now < e - 5
    · exact Decidable.isTrue ⟨e, rfl, hlt⟩
    · exact Decidable.isFalse (by simp [hlt])

/-- The body of `refresh_token` past the expiry check: bail out if there is
no refresh token, otherwise run the Cognito exchange.  On success the new
id/access tokens are stored, the expiry becomes `now + 55` minutes, and
`_save_tokens` persists the set; on `NotAuthorizedException` all four fields
are cleared (nothing persisted); on any other error the state is unchanged. -/
def doExchange (st : AuthState) (now : ℤ) (outcome : RefreshOutcome) : RefreshResult :=
  match st.refreshToken with
  | none => ⟨false, st, false⟩
  | some _ =>
    match outcome with
    | RefreshOutcome.success newId newAccess =>
      let st1 : AuthState :=
        { st with idToken := some newId, accessToken := some newAccess,
                  tokenExpiry := some (now + 55) }
      ⟨true, { st1 with persisted := savePersisted st1 }, true⟩
    | RefreshOutcome.notAuthorized => ⟨false, clearedTokens st.persisted, true⟩
    | RefreshOutcome.otherError => ⟨false, st, true⟩

/-- `HiveAuth.refresh_token`: return `True` without touching anything while
the stored expiry is more than 5 minutes away, otherwise refresh. -/
def refreshToken (st : AuthState) (now : ℤ) (outcome : RefreshOutcome) : RefreshResult :=
  match st.tokenExpiry with
  | some e => if now < e - 5 then ⟨true, st, false⟩ else doExchange st now outcome
  | none => doExchange st now outcome

/-- Result of `HiveAuth.get_id_token`. -/
structure TokenResult where
  token : Option String
  state : AuthState
  exchanged : Bool
deriving DecidableEq, Repr

/-- `HiveAuth.get_id_token`: `None` when no id token is held (Python
truthiness: a missing or empty string), otherwise run `refresh_token` and
return whatever `_id_token` then holds. -/
def getIdToken (st : AuthState) (now : ℤ) (outcome : RefreshOutcome) : TokenResult :=
  match st.idToken with
  | none => ⟨none, st, false⟩
  | some t =>
    if t = "" then ⟨none, st, false⟩
    else
      let r := refreshToken st now outcome
      ⟨r.state.idToken, r.state, r.exchanged⟩

theorem refreshToken_notAuthorized (st : AuthState) (now : ℤ) (rt : String)
    (hrt : st.refreshToken = some rt) (hnv : ¬ tokenValidAt st now) :
    refreshToken st now RefreshOutcome.notAuthorized =
      ⟨false, clearedTokens st.persisted, true⟩ := by
  cases hex : st.tokenExpiry with
  | none => simp [refreshToken, hex, doExchange, hrt]
  | some e =>
    have hlt : ¬ now < e - 5 := fun hc => hnv ⟨e, hex, hc⟩
    simp [refreshToken, hex, hlt, doExchange, hrt]

/-- C2: on a token request with a cached id token, if `now` is more than the
5-minute margin before the stored expiry the cached id token is returned
unchanged with no refresh exchange; otherwise, with a refresh token present
and a successful exchange, exactly one exchange happens, the new tokens are
stored, the expiry becomes `now + 55` minutes, the token set is persisted,
and the new id token is returned. -/
theorem token_request_behavior
    (st : AuthState) (now : ℤ) (o : RefreshOutcome) (i : String)
    (hid : st.idToken = some i) (hi : i ≠ "") :
    (∀ e, st.tokenExpiry = some e → now < e - 5 →
      getIdToken st now o = ⟨some i, st, false⟩) ∧
    (∀ rt newId newAcc, ¬ tokenValidAt st now → st.refreshToken = some rt →
      o = RefreshOutcome.success newId newAcc →
      getIdToken st now o =
        ⟨some newId,
         ⟨some newId, some newAcc, some rt, some (now + 55),
          ⟨some newId, some newAcc, some rt, some (now + 55)⟩⟩, true⟩) := by
  constructor
  · intro e he hlt
    simp [getIdToken, refreshToken, hid, hi, he, hlt]
  · rintro rt newId newAcc hnv hrt rfl
    obtain ⟨it, at2, rt2, ex2, p2⟩ := st
    simp only at hid hrt
    subst hid
    subst hrt
    simp only [getIdToken, if_neg hi]
    cases hex : ex2 with
    | none => simp [refreshToken, doExchange, savePersisted]
    | some e =>
      have hlt : ¬ now < e - 5 := by
        intro hc
        exact hnv ⟨e, by simp [hex], hc⟩
      simp [refreshToken, hlt, doExchange, savePersisted]

/-- Witness for C2 at a concrete state: a token valid for another 50 minutes
is returned unchanged with no exchange; an expiring token is refreshed
exactly once, restored and persisted with expiry `now + 55`. -/
theorem token_request_behavior_witness :
    getIdToken ⟨some "id0", some "ac0", some "rt0", some 100,
        ⟨some "id0", some "ac0", some "rt0", some 100⟩⟩ 50 RefreshOutcome.otherError =
      ⟨some "id0",
       ⟨some "id0", some "ac0", some "rt0", some 100,
        ⟨some "id0", some "ac0", some "rt0", some 100⟩⟩, false⟩ ∧
    getIdToken ⟨some "id0", some "ac0", some "rt0", some 100,
        ⟨some "id0", some "ac0", some "rt0", some 100⟩⟩ 99
        (RefreshOutcome.success "newid" "newacc") =
      ⟨some "newid",
       ⟨some "newid", some "newacc", some "rt0", some 154,
        ⟨some "newid", some "newacc", some "rt0", some 154⟩⟩, true⟩ := by
  constructor
  · exact (token_request_behavior _ 50 RefreshOutcome.otherError "id0" rfl
      (by decide)).1 100 rfl (by decide)
  · exact (token_request_behavior _ 99 (RefreshOutcome.success "newid" "newacc") "id0" rfl
      (by decide)).2 "rt0" "newid" "newacc" (by decide) rfl rfl

/-- C3: when the provider rejects the refresh token
(`NotAuthorizedException`), all four token fields are cleared and the
operation fails (`refresh_token` returns `False`, which every caller
surfaces as a re-authentication request); afterwards no token request can
recover a token. -/
theorem refresh_rejected_clears_and_fails
    (st : AuthState) (now : ℤ) (rt : String)
    (hrt : st.refreshToken = some rt) (hnv : ¬ tokenValidAt st now) :
    refreshToken st now RefreshOutcome.notAuthorized =
      ⟨false, clearedTokens st.persisted, true⟩ ∧
    ∀ now2 o2, getIdToken (clearedTokens st.persisted) now2 o2 =
      ⟨none, clearedTokens st.persisted, false⟩ := by
  exact ⟨refreshToken_notAuthorized st now rt hrt hnv, fun now2 o2 => rfl⟩

/-- Witness for C3: a concrete expired state whose refresh is rejected ends
up cleared, and a later token request on the cleared state yields nothing. -/
theorem refresh_rejected_clears_and_fails_witness :
    refreshToken ⟨some "id1", some "ac1", some "rt1", some 10,
        ⟨some "id1", some "ac1", some "rt1", some 10⟩⟩ 500 RefreshOutcome.notAuthorized =
      ⟨false, clearedTokens ⟨some "id1", some "ac1", some "rt1", some 10⟩, true⟩ ∧
    getIdToken (clearedTokens ⟨some "id1", some "ac1", some "rt1", some 10⟩) 600
        RefreshOutcome.otherError =
      ⟨none, clearedTokens ⟨some "id1", some "ac1", some "rt1", some 10⟩, false⟩ := by
  have h := refresh_rejected_clears_and_fails
    ⟨some "id1", some "ac1", some "rt1", some 10,
     ⟨some "id1", some "ac1", some "rt1", some 10⟩⟩ 500 "rt1" rfl (by decide)
  exact ⟨h.1, h.2 600 RefreshOutcome.otherError⟩

/-- C9: the `NotAuthorizedException` path clears the tokens only in memory:
`_save_tokens` is not invoked, so the persisted config entry still holds the
invalidated token set, and reloading it on restart (`HiveAuth.__init__`)
restores the old tokens. -/
theorem refresh_rejected_not_persisted
    (st : AuthState) (now : ℤ) (rt : String)
    (hrt : st.refreshToken = some rt) (hnv : ¬ tokenValidAt st now) :
    (refreshToken st now RefreshOutcome.notAuthorized).state.persisted = st.persisted ∧
    (refreshToken st now RefreshOutcome.notAuthorized).state.idToken = none ∧
    (refreshToken st now RefreshOutcome.notAuthorized).state.accessToken = none ∧
    (refreshToken st now RefreshOutcome.notAuthorized).state.refreshToken = none ∧
    (refreshToken st now RefreshOutcome.notAuthorized).state.tokenExpiry = none ∧
    loadState (refreshToken st now RefreshOutcome.notAuthorized).state.persisted =
      loadState st.persisted := by
  rw [refreshToken_notAuthorized st now rt hrt hnv]
  exact ⟨rfl, rfl, rfl, rfl, rfl, rfl⟩

/-- Witness for C9: at a concrete rejected refresh, the persisted entry is
byte-for-byte the old one while the in-memory fields are all cleared. -/
theorem refresh_rejected_not_persisted_witness :
    (refreshToken ⟨some "id2", some "ac2", some "rt2", some 10,
        ⟨some "id2", some "ac2", some "rt2", some 10⟩⟩ 500
        RefreshOutcome.notAuthorized).state.persisted =
      ⟨some "id2", some "ac2", some "rt2", some 10⟩ ∧
    (refreshToken ⟨some "id2", some "ac2", some "rt2", some 10,
        ⟨some "id2", some "ac2", some "rt2", some 10⟩⟩ 500
        RefreshOutcome.notAuthorized).state.refreshToken = none := by
  have h := refresh_rejected_not_persisted
    ⟨some "id2", some "ac2", some "rt2", some 10,
     ⟨some "id2", some "ac2", some "rt2", some 10⟩⟩ 500 "rt2" rfl (by decide)
  exact ⟨h.1, h.2.2.2.1⟩

/-! ## Schedule submission (`HiveScheduleAPI.update_schedule`)

HTTP is an oracle: `post n` is the outcome of the `n`-th POST the call would
issue (`ok` for any 2xx/3xx status, i.e. `raise_for_status()` not raising).
`refOut n` is the outcome of the `n`-th provider exchange that a nested
`refresh_token` would run.  The trace records how many POSTs were issued,
how many provider exchanges were attempted and how many `get_id_token`
calls were made. -/

/-- Outcome of one `session.post(...)` call, as seen through
`raise_for_status()`. -/
inductive PostResult
  | ok
  | http (status : ℕ)
  | timeout
  | netError
deriving DecidableEq, Repr

/-- How `update_schedule` terminates: success, or one of the distinct
`HomeAssistantError`s it raises. -/
inductive SubmitOutcome
  | success
  | noAuthToken        -- "Failed to authenticate with Hive"
  | authFailed         -- "Hive authentication failed" (the 401 path)
  | unknownNode        -- "Invalid node ID: ..." (404)
  | httpFailure        -- "Failed to update schedule: ..." (other HTTP error)
  | timedOut           -- "Hive API request timed out"
  | transportFailure   -- "Failed to update schedule: ..." (request error)
deriving DecidableEq, Repr

/-- Observable effects of one `update_schedule` call. -/
structure SubmitTrace where
  posts : ℕ
  exchanges : ℕ
  tokenRequests : ℕ
deriving DecidableEq, Repr

/-- `HiveScheduleAPI.update_schedule`: fetch a token via `get_id_token`
(raising if none), POST once, and on a 401 run `refresh_token`; if that
reports success, fetch the token again and retry the POST exactly once, any
retry failure (and a refresh reporting failure) raising
"Hive authentication failed".  404 and other statuses, timeouts and request
errors raise immediately without any retry. -/
def updateSchedule (st : AuthState) (now : ℤ) (refOut : ℕ → RefreshOutcome)
    (post : ℕ → PostResult) : SubmitOutcome × AuthState × SubmitTrace :=
  let t0 := getIdToken st now (refOut 0)
  let ex0 : ℕ := cond t0.exchanged 1 0
  match t0.token with
  | none => (SubmitOutcome.noAuthToken, t0.state, ⟨0, ex0, 1⟩)
  | some tok =>
    if tok = "" then (SubmitOutcome.noAuthToken, t0.state, ⟨0, ex0, 1⟩)
    else
      match post 0 with
      | PostResult.ok => (SubmitOutcome.success, t0.state, ⟨1, ex0, 1⟩)
      | PostResult.http s =>
        if s = 401 then
          let r := refreshToken t0.state now (refOut 1)
          let ex1 : ℕ := cond r.exchanged 1 0
          if r.ok then
            let t1 := getIdToken r.state now (refOut 2)
            let ex2 : ℕ := cond t1.exchanged 1 0
            match post 1 with
            | PostResult.ok =>
              (SubmitOutcome.success, t1.state, ⟨2, ex0 + ex1 + ex2, 2⟩)
            | _ =>
              (SubmitOutcome.authFailed, t1.state, ⟨2, ex0 + ex1 + ex2, 2⟩)
          else (SubmitOutcome.authFailed, r.state, ⟨1, ex0 + ex1, 1⟩)
        else if s = 404 then (SubmitOutcome.unknownNode, t0.state, ⟨1, ex0, 1⟩)
        else (SubmitOutcome.httpFailure, t0.state, ⟨1, ex0, 1⟩)
      | PostResult.timeout => (SubmitOutcome.timedOut, t0.state, ⟨1, ex0, 1⟩)
      | PostResult.netError => (SubmitOutcome.transportFailure, t0.state, ⟨1, ex0, 1⟩)

theorem updateSchedule_posts_le_two (st : AuthState) (now : ℤ)
    (refOut : ℕ → RefreshOutcome) (post : ℕ → PostResult) :
    (updateSchedule st now refOut post).2.2.posts ≤ 2 := by
  unfold updateSchedule
  repeat' split
  all_goals
    cases htok : (getIdToken st now (refOut 0)).token <;>
      simp only [htok] <;>
      (repeat' split) <;>
      simp

theorem refreshToken_no_rt_state (st : AuthState) (now : ℤ) (o : RefreshOutcome)
    (h : st.refreshToken = none) : (refreshToken st now o).state = st := by
  unfold refreshToken
  cases hex : st.tokenExpiry with
  | none => simp [doExchange, h]
  | some e =>
    by_cases hlt : now < e - 5
    · simp [hlt]
    · simp [hlt, doExchange, h]

/-- C1 counterexample: a 403 response triggers no refresh and no retried
POST, contrary to the claim's "401/403": the call fails after exactly one
POST and zero refresh exchanges even though a retry would have succeeded. -/
theorem submit_403_no_retry_counterexample :
    updateSchedule ⟨some "tok", some "acc", some "rt", some 1000,
        ⟨some "tok", some "acc", some "rt", some 1000⟩⟩ 0
      (fun _ => RefreshOutcome.otherError)
      (fun n => if n = 0 then PostResult.http 403 else PostResult.ok) =
      (SubmitOutcome.httpFailure,
       ⟨some "tok", some "acc", some "rt", some 1000,
        ⟨some "tok", some "acc", some "rt", some 1000⟩⟩,
       ⟨1, 0, 1⟩) := by
  rfl

theorem getIdToken_no_exchange_of_valid {st : AuthState} {now e : ℤ}
    (hex : st.tokenExpiry = some e) (hlt : now < e - 5) (o : RefreshOutcome) :
    (getIdToken st now o).exchanged = false := by
  cases hid : st.idToken with
  | none => simp [getIdToken, hid]
  | some t =>
    by_cases ht : t = ""
    · simp [getIdToken, hid, ht]
    · simp [getIdToken, hid, ht, refreshToken, hex, hlt]

theorem doExchange_ok_no_second {st1 st2 : AuthState} {now : ℤ} {o1 : RefreshOutcome}
    {ex1 : Bool} (h : doExchange st1 now o1 = ⟨true, st2, ex1⟩) (o2 : RefreshOutcome) :
    (getIdToken st2 now o2).exchanged = false := by
  unfold doExchange at h
  cases hrt : st1.refreshToken with
  | none =>
    rw [hrt] at h
    simp at h
  | some rt =>
    rw [hrt] at h
    cases o1 with
    | success nid nacc =>
      simp only [RefreshResult.mk.injEq] at h
      obtain ⟨-, hstate, -⟩ := h
      subst hstate
      exact getIdToken_no_exchange_of_valid rfl (by omega) o2
    | notAuthorized => simp at h
    | otherError => simp at h

theorem refresh_ok_no_second_exchange {st1 st2 : AuthState} {now : ℤ}
    {o1 : RefreshOutcome} {ex1 : Bool}
    (href : refreshToken st1 now o1 = ⟨true, st2, ex1⟩) (o2 : RefreshOutcome) :
    (getIdToken st2 now o2).exchanged = false := by
  unfold refreshToken at href
  cases hex : st1.tokenExpiry with
  | none =>
    rw [hex] at href
    dsimp only at href
    exact doExchange_ok_no_second href o2
  | some e =>
    rw [hex] at href
    dsimp only at href
    by_cases hlt : now < e - 5
    · rw [if_pos hlt] at href
      simp only [RefreshResult.mk.injEq] at href
      obtain ⟨-, hstate, -⟩ := href
      subst hstate
      exact getIdToken_no_exchange_of_valid hex hlt o2
    · rw [if_neg hlt] at href
      exact doExchange_ok_no_second href o2

/-- C1 (amended): for every submission whose first POST receives HTTP 401,
the submitter calls the Token Manager's refresh operation
(`auth.refresh_token`) once, rebuilds the Authorization header, and retries
the POST exactly once when the refresh reports success (two POSTs, two
token requests; the only provider exchanges are the initial token fetch's
and the single 401-path refresh invocation's, the post-refresh header
rebuild performing none); a failed retry fails with the
"Hive authentication failed" `HomeAssistantError`, a refresh reporting
failure fails the same way without any retried POST, and no run of
`update_schedule` ever issues a third POST.  A 403 response triggers no
refresh and no retried POST: the submission fails immediately after the
single POST. -/
theorem submit_401_retry_once
    (st : AuthState) (now : ℤ) (refOut : ℕ → RefreshOutcome) (post : ℕ → PostResult)
    (tok : String) (st1 st2 : AuthState) (ex0 ex1 rok : Bool)
    (hget : getIdToken st now (refOut 0) = ⟨some tok, st1, ex0⟩)
    (htne : tok ≠ "")
    (h401 : post 0 = PostResult.http 401)
    (href : refreshToken st1 now (refOut 1) = ⟨rok, st2, ex1⟩) :
    (rok = true → post 1 = PostResult.ok →
      updateSchedule st now refOut post =
        (SubmitOutcome.success, (getIdToken st2 now (refOut 2)).state,
         ⟨2, cond ex0 1 0 + cond ex1 1 0, 2⟩)) ∧
    (rok = true → post 1 ≠ PostResult.ok →
      updateSchedule st now refOut post =
        (SubmitOutcome.authFailed, (getIdToken st2 now (refOut 2)).state,
         ⟨2, cond ex0 1 0 + cond ex1 1 0, 2⟩)) ∧
    (rok = false →
      updateSchedule st now refOut post =
        (SubmitOutcome.authFailed, st2, ⟨1, cond ex0 1 0 + cond ex1 1 0, 1⟩)) ∧
    (∀ post2, post2 0 = PostResult.http 403 →
      updateSchedule st now refOut post2 =
        (SubmitOutcome.httpFailure, st1, ⟨1, cond ex0 1 0, 1⟩)) ∧
    (∀ st3 now3 refOut3 post3,
      (updateSchedule st3 now3 refOut3 post3).2.2.posts ≤ 2) := by
  refine ⟨?_, ?_, ?_, ?_, fun st3 now3 r3 p3 => updateSchedule_posts_le_two st3 now3 r3 p3⟩
  · intro hrok hp1
    subst hrok
    have hx : (getIdToken st2 now (refOut 2)).exchanged = false :=
      refresh_ok_no_second_exchange href (refOut 2)
    simp [updateSchedule, hget, htne, h401, href, hp1, hx]
  · intro hrok hp1
    subst hrok
    have hx : (getIdToken st2 now (refOut 2)).exchanged = false :=
      refresh_ok_no_second_exchange href (refOut 2)
    cases hp : post 1 with
    | ok => exact absurd hp hp1
    | http s => simp [updateSchedule, hget, htne, h401, href, hp, hx]
    | timeout => simp [updateSchedule, hget, htne, h401, href, hp, hx]
    | netError => simp [updateSchedule, hget, htne, h401, href, hp, hx]
  · intro hrok
    subst hrok
    simp [updateSchedule, hget, htne, h401, href]
  · intro post2 h403
    simp [updateSchedule, hget, htne, h403]

/-- Witness for C1 (amended), at the stale-expiry slice of the 401 path: the
initial token fetch attempts an exchange that fails (stale token kept), the
first POST gets 401, the single refresh invocation performs a real
successful provider exchange, the POST is retried once with the rebuilt
token, the retry's 401 fails the call, and the trace is two POSTs, two
exchanges, two token requests. -/
theorem submit_401_retry_once_witness :
    updateSchedule ⟨some "tok", some "acc", some "rt", some 0,
        ⟨some "tok", some "acc", some "rt", some 0⟩⟩ 1000
      (fun n => if n = 0 then RefreshOutcome.otherError
                else RefreshOutcome.success "nid" "na")
      (fun _ => PostResult.http 401) =
      (SubmitOutcome.authFailed,
       ⟨some "nid", some "na", some "rt", some 1055,
        ⟨some "nid", some "na", some "rt", some 1055⟩⟩,
       ⟨2, 2, 2⟩) := by
  exact (submit_401_retry_once
    ⟨some "tok", some "acc", some "rt", some 0,
     ⟨some "tok", some "acc", some "rt", some 0⟩⟩
    1000
    (fun n => if n = 0 then RefreshOutcome.otherError
              else RefreshOutcome.success "nid" "na")
    (fun _ => PostResult.http 401)
    "tok"
    ⟨some "tok", some "acc", some "rt", some 0,
     ⟨some "tok", some "acc", some "rt", some 0⟩⟩
    ⟨some "nid", some "na", some "rt", some 1055,
     ⟨some "nid", some "na", some "rt", some 1055⟩⟩
    true true true rfl (by decide) rfl rfl).2.1 rfl (by decide)

/-- C4 counterexample: with a cached but long-expired id token and no
refresh token available, `get_id_token` returns the stale token string
instead of failing with an authentication error. -/
theorem stale_token_returned_counterexample :
    (getIdToken ⟨some "stale", none, none, some 0,
        ⟨some "stale", none, none, some 0⟩⟩ 1000 RefreshOutcome.otherError).token =
      some "stale" ∧
    (⟨some "stale", none, none, some 0,
      ⟨some "stale", none, none, some 0⟩⟩ : AuthState).refreshToken = none ∧
    ¬ tokenValidAt ⟨some "stale", none, none, some 0,
      ⟨some "stale", none, none, some 0⟩⟩ 1000 := by
  refine ⟨rfl, rfl, ?_⟩
  rintro ⟨e, he, hlt⟩
  simp only [Option.some.injEq] at he
  omega

/-- C4 (amended): when no id token is cached at all, `get_id_token` returns
no token and `update_schedule` fails before any POST with the
"Failed to authenticate with Hive" error; but when a (possibly expired) id
token is cached and no refresh token is available, the stale cached token
string is returned rather than an error. -/
theorem get_valid_token_failure
    (st : AuthState) (now : ℤ) (o : RefreshOutcome) :
    (st.idToken = none → getIdToken st now o = ⟨none, st, false⟩ ∧
      ∀ refOut post, updateSchedule st now refOut post =
        (SubmitOutcome.noAuthToken, st, ⟨0, 0, 1⟩)) ∧
    (∀ t, st.refreshToken = none → st.idToken = some t → t ≠ "" →
      (getIdToken st now o).token = some t) := by
  constructor
  · intro h
    constructor
    · simp [getIdToken, h]
    · intro refOut post
      simp [updateSchedule, getIdToken, h]
  · intro t hrt hid ht
    simp [getIdToken, hid, ht, refreshToken_no_rt_state st now o hrt]

/-- Witness for C4 (amended): a concrete empty token state fails before any
POST, and a concrete expired-token/no-refresh-token state returns the stale
string. -/
theorem get_valid_token_failure_witness :
    updateSchedule ⟨none, none, none, none, ⟨none, none, none, none⟩⟩ 0
      (fun _ => RefreshOutcome.otherError) (fun _ => PostResult.ok) =
      (SubmitOutcome.noAuthToken, ⟨none, none, none, none, ⟨none, none, none, none⟩⟩,
       ⟨0, 0, 1⟩) ∧
    (getIdToken ⟨some "stale2", none, none, some 0,
        ⟨some "stale2", none, none, some 0⟩⟩ 1000 RefreshOutcome.otherError).token =
      some "stale2" := by
  constructor
  · exact ((get_valid_token_failure ⟨none, none, none, none, ⟨none, none, none, none⟩⟩ 0
      RefreshOutcome.otherError).1 rfl).2 _ _
  · exact (get_valid_token_failure _ 1000 RefreshOutcome.otherError).2 "stale2" rfl rfl
      (by decide)

/-! ## The `set_day_schedule` service handler (`handle_set_day`)

The handler picks a day schedule using Python truthiness on
`call.data.get("profile")` / `call.data.get("schedule")` (an absent key,
empty string or empty list are all falsy), validates it and submits it via
`update_schedule`.  Profiles are the mapping loaded from the YAML file,
modelled as an association list; `_get_builtin_profiles` provides a concrete
one. -/

/-- Profiles mapping, as loaded by `_load_profiles`. -/
abbrev Profiles := List (String × List Entry)

/-- `profile in profiles` / `profiles[profile]` on the association list. -/
def lookupProfile (ps : Profiles) (name : String) : Option (List Entry) :=
  match ps with
  | [] => none
  | (k, v) :: rest => if k = name then some v else lookupProfile rest name

/-- `_get_builtin_profiles` (`__init__.py`). -/
def builtinProfiles : Profiles :=
  [("workday",
    [⟨"05:20", 18.5⟩, ⟨"07:00", 18.0⟩, ⟨"16:30", 19.5⟩, ⟨"21:45", 16.0⟩]),
   ("weekend",
    [⟨"07:30", 18.5⟩, ⟨"09:00", 18.0⟩, ⟨"16:30", 19.5⟩, ⟨"22:00", 16.0⟩]),
   ("nonworkday",
    [⟨"06:30", 18.5⟩, ⟨"08:00", 18.0⟩, ⟨"16:30", 19.5⟩, ⟨"22:00", 16.0⟩]),
   ("holiday", [⟨"00:00", 15.0⟩]),
   ("all_day_comfort", [⟨"00:00", 19.0⟩]),
   ("custom1",
    [⟨"05:30", 17.0⟩, ⟨"08:00", 16.5⟩, ⟨"12:00", 18.0⟩, ⟨"17:00", 19.0⟩,
     ⟨"22:30", 16.0⟩]),
   ("custom2",
    [⟨"06:00", 18.0⟩, ⟨"09:00", 17.5⟩, ⟨"13:00", 18.5⟩, ⟨"18:00", 19.5⟩,
     ⟨"23:00", 16.5⟩])]

/-- The failures `handle_set_day` can raise before or during submission. -/
inductive SetDayError
  | unknownProfile      -- "Unknown profile '...'"
  | neitherProvided     -- "Either 'profile' or 'schedule' must be provided"
  | invalidSchedule     -- "Invalid schedule: ..."
  | submission (o : SubmitOutcome)
deriving DecidableEq, Repr

/-- The schedule-selection branch of `handle_set_day`, with Python
truthiness (`if profile and custom_schedule: ... elif profile: ...
elif custom_schedule: ... else: raise`).  The boolean records whether the
"Both profile and schedule provided" warning was logged. -/
def chooseSchedule (profile : Option String) (cust : Option (List Entry))
    (ps : Profiles) : Except SetDayError (List Entry × Bool) :=
  match profile, cust with
  | some p, some l =>
    if p ≠ "" ∧ l ≠ [] then Except.ok (l, true)
    else if p ≠ "" then
      match lookupProfile ps p with
      | some found => Except.ok (found, false)
      | none => Except.error SetDayError.unknownProfile
    else if l ≠ [] then Except.ok (l, false)
    else Except.error SetDayError.neitherProvided
  | some p, none =>
    if p ≠ "" then
      match lookupProfile ps p with
      | some found => Except.ok (found, false)
      | none => Except.error SetDayError.unknownProfile
    else Except.error SetDayError.neitherProvided
  | none, some l =>
    if l ≠ [] then Except.ok (l, false)
    else Except.error SetDayError.neitherProvided
  | none, none => Except.error SetDayError.neitherProvided

/-- `handle_set_day`: choose the schedule, validate it, and only then call
`update_schedule`.  The trace is the submission trace, or all zeros when the
handler raises before submitting (no POST, no refresh exchange, no token
request). -/
def handleSetDay (profile : Option String) (cust : Option (List Entry))
    (ps : Profiles) (st : AuthState) (now : ℤ) (refOut : ℕ → RefreshOutcome)
    (post : ℕ → PostResult) : Except SetDayError Unit × SubmitTrace :=
  match chooseSchedule profile cust ps with
  | Except.error e => (Except.error e, ⟨0, 0, 0⟩)
  | Except.ok (sched, _) =>
    match validateSchedule sched with
    | Except.error _ => (Except.error SetDayError.invalidSchedule, ⟨0, 0, 0⟩)
    | Except.ok _ =>
      match updateSchedule st now refOut post with
      | (SubmitOutcome.success, _, tr) => (Except.ok (), tr)
      | (o, _, tr) => (Except.error (SetDayError.submission o), tr)

/-- C7: a `set_day_schedule` call supplying neither a profile nor a
schedule fails with the descriptive "Either 'profile' or 'schedule' must be
provided" error before any POST, any refresh exchange, and any token
acquisition. -/
theorem set_day_neither_fails_before_network
    (ps : Profiles) (st : AuthState) (now : ℤ) (refOut : ℕ → RefreshOutcome)
    (post : ℕ → PostResult) :
    handleSetDay none none ps st now refOut post =
      (Except.error SetDayError.neitherProvided, ⟨0, 0, 0⟩) := by
  rfl

/-- C8 counterexample: supplying both a profile name and an explicit (but
empty) schedule list does NOT use the explicit schedule: Python truthiness
makes `profile and custom_schedule` false, the profile branch runs, the
unknown name is looked up and the call fails with the unknown-profile
error. -/
theorem both_with_empty_schedule_counterexample :
    handleSetDay (some "nope") (some []) builtinProfiles
      ⟨some "tok", some "acc", some "rt", some 1000,
       ⟨some "tok", some "acc", some "rt", some 1000⟩⟩ 0
      (fun _ => RefreshOutcome.otherError) (fun _ => PostResult.ok) =
      (Except.error SetDayError.unknownProfile, ⟨0, 0, 0⟩) := by
  rfl

/-- C8 (amended): supplying both a profile name and a NON-EMPTY explicit
schedule uses the explicit schedule with the "both provided" warning,
regardless of the profile name and of the loaded profiles (the profile is
not looked up, so it cannot cause an unknown-profile failure); with an
empty explicit schedule the handler falls back to the profile branch. -/
theorem both_supplied_uses_explicit_schedule
    (p : String) (l : List Entry) (ps : Profiles)
    (hp : p ≠ "") (hl : l ≠ []) :
    chooseSchedule (some p) (some l) ps = Except.ok (l, true) ∧
    ∀ st now refOut post,
      (handleSetDay (some p) (some l) ps st now refOut post).1 ≠
        Except.error SetDayError.unknownProfile := by
  have hchoose : chooseSchedule (some p) (some l) ps = Except.ok (l, true) := by
    simp [chooseSchedule, hp, hl]
  refine ⟨hchoose, ?_⟩
  intro st now refOut post
  unfold handleSetDay
  rw [hchoose]
  cases hv : validateSchedule l with
  | error e => simp [hv]
  | ok u =>
    cases u
    rcases hu : updateSchedule st now refOut post with ⟨o, st2, tr⟩
    cases o <;> simp [hv, hu]

/-- Witness for C8 (amended): with the builtin profiles, a call supplying
the existing profile "workday" and a non-empty explicit schedule uses the
explicit schedule (with the warning) and never reports an unknown profile. -/
theorem both_supplied_uses_explicit_schedule_witness :
    chooseSchedule (some "workday") (some [⟨"05:20", 18.5⟩]) builtinProfiles =
      Except.ok ([⟨"05:20", 18.5⟩], true) ∧
    (handleSetDay (some "workday") (some [⟨"05:20", 18.5⟩]) builtinProfiles
        ⟨some "tok", some "acc", some "rt", some 1000,
         ⟨some "tok", some "acc", some "rt", some 1000⟩⟩ 0
        (fun _ => RefreshOutcome.otherError) (fun _ => PostResult.ok)).1 ≠
      Except.error SetDayError.unknownProfile := by
  have h := both_supplied_uses_explicit_schedule "workday" [⟨"05:20", 18.5⟩]
    builtinProfiles (by decide) (by decide)
  exact ⟨h.1, h.2 _ _ _ _⟩

/-- Witness for C6: the round trip instantiated at the concrete valid time
string "23:59". -/
theorem time_conversion_roundtrip_witness :
    isHHMM "23:59" = true ∧
    ∃ n : ℕ, time_to_minutes "23:59" = some (n : ℤ) ∧ minutes_to_time n = "23:59" :=
  ⟨by decide, time_conversion_roundtrip.2.2 "23:59" (by decide)⟩
